import Mathlib

/-!
Verification of a one-line arithmetic/variable language implementation
(lexer, recursive-descent parser, tree-walking evaluator with a mutable
variable environment), shallowly embedded from `src/compiler.c`.

Modelling conventions:
* the source buffer is a `List Char` (the C code reads one NUL-terminated
  line; inputs are assumed NUL-free, as any line read by `fgets` is);
* C `double` values are modelled by `DVal`: exact rationals for finite
  values plus the IEEE-754 infinities and NaN.  Rounding and signed zero
  are not modelled — every arithmetic fact proved below involves only
  small integers and division by zero, which are exact in binary64;
* the C parser pulls tokens one at a time from the global lexer, keeping a
  single token of lookahead, and never advances past a `TOKEN_EOF`-typed
  token.  Since lexing does not depend on parser state, the stream the
  parser can observe is exactly the token list up to and including the
  first `TOKEN_EOF`-typed token, which `tokenize` computes up front;
* the mutually recursive descent functions take an explicit fuel argument
  bounding recursion depth (the C functions terminate because every nested
  call happens after consuming at least one token); the top-level `parse`
  supplies ample fuel, and every concrete evaluation below confirms it is
  never exhausted on the inputs considered.
-/

namespace Compiler

/-- Token kinds, mirroring the C `TokenType` enum.  Note there is no
dedicated error kind: `error_token` reuses `eof`. -/
inductive TokenType
  | eof
  | number
  | identifier
  | plus
  | minus
  | star
  | slash
  | equal
  | semicolon
  | lparen
  | rparen
  | print_kw
deriving DecidableEq

/-- A classified lexeme: kind plus the exact source text it was scanned
from (the C struct stores a start pointer and length into the buffer; for
the error token the text is the error message instead). -/
structure Token where
  type : TokenType
  text : String
deriving DecidableEq

/-- Mirrors C `error_token`: the failing token is represented as an
end-marker (`TOKEN_EOF`) whose text is the error message. -/
def error_token (message : String) : Token :=
  ⟨TokenType.eof, message⟩

/-- The whitespace characters skipped by C `skip_whitespace`. -/
def isWhitespaceChar (c : Char) : Bool :=
  c = ' ' || c = '\t' || c = '\r' || c = '\n'

/-- Mirrors C `skip_whitespace`: drop leading whitespace. -/
def skip_whitespace : List Char → List Char
  | [] => []
  | c :: cs => if isWhitespaceChar c then skip_whitespace cs else c :: cs

/-- Mirrors C `is_alpha_or_underscore` (`isalpha` in the C locale is the
ASCII letters, which is what `Char.isAlpha` tests). -/
def is_alpha_or_underscore (c : Char) : Bool :=
  c.isAlpha || c = '_'

/-- Identifier continuation characters (the loop condition in C
`identifier`). -/
def isIdentChar (c : Char) : Bool :=
  is_alpha_or_underscore c || c.isDigit

/-- Mirrors C `scan_token`: skip whitespace, then classify by the first
character — maximal digit run, maximal identifier run (with the exact
text `print` reclassified as the keyword), single-character punctuation,
or the `error_token` end-marker for anything else.  Returns the token and
the unconsumed remainder of the buffer. -/
def scan_token (l : List Char) : Token × List Char :=
  match skip_whitespace l with
  | [] => (⟨TokenType.eof, ""⟩, [])
  | c :: cs =>
    if c.isDigit then
      (⟨TokenType.number, String.mk (c :: cs.takeWhile Char.isDigit)⟩,
        cs.dropWhile Char.isDigit)
    else if is_alpha_or_underscore c then
      let text := String.mk (c :: cs.takeWhile isIdentChar)
      (⟨if text = "print" then TokenType.print_kw else TokenType.identifier, text⟩,
        cs.dropWhile isIdentChar)
    else if c = '+' then (⟨TokenType.plus, String.mk [c]⟩, cs)
    else if c = '-' then (⟨TokenType.minus, String.mk [c]⟩, cs)
    else if c = '*' then (⟨TokenType.star, String.mk [c]⟩, cs)
    else if c = '/' then (⟨TokenType.slash, String.mk [c]⟩, cs)
    else if c = '=' then (⟨TokenType.equal, String.mk [c]⟩, cs)
    else if c = ';' then (⟨TokenType.semicolon, String.mk [c]⟩, cs)
    else if c = '(' then (⟨TokenType.lparen, String.mk [c]⟩, cs)
    else if c = ')' then (⟨TokenType.rparen, String.mk [c]⟩, cs)
    else (error_token "Unexpected character.", cs)

theorem skip_whitespace_length_le (l : List Char) :
    (skip_whitespace l).length ≤ l.length := by
  induction l with
  | nil => simp [skip_whitespace]
  | cons c cs ih =>
    simp only [skip_whitespace]
    split
    · exact Nat.le_succ_of_le ih
    · simp

theorem dropWhile_length_le (p : Char → Bool) (l : List Char) :
    (l.dropWhile p).length ≤ l.length := by
  induction l with
  | nil => simp
  | cons c cs ih =>
    simp only [List.dropWhile]
    split
    · exact Nat.le_succ_of_le ih
    · simp

theorem scan_token_shrinks (l : List Char) :
    (scan_token l).1.type = TokenType.eof ∨ (scan_token l).2.length < l.length := by
  have hws := skip_whitespace_length_le l
  unfold scan_token
  cases hl : skip_whitespace l with
  | nil => left; rfl
  | cons c cs =>
    rw [hl] at hws
    simp only [List.length_cons] at hws
    have hdw : ∀ p : Char → Bool, (cs.dropWhile p).length < l.length := by
      intro p
      have := dropWhile_length_le p cs
      omega
    have hcs : cs.length < l.length := by omega
    right
    dsimp only
    repeat' split
    all_goals first | exact hdw _ | exact hcs

/-- Fuel-indexed token scanning loop: emit tokens until the first
`TOKEN_EOF`-typed one (inclusive).  The fuel only serves to make the
recursion structural; `scan_tokens_fuel_congr` below shows the result is
the same for every fuel exceeding the buffer length, which
`scan_token_shrinks` guarantees is enough (each non-end token consumes
at least one character). -/
def scan_tokens_fuel : Nat → List Char → List Token
  | 0, _ => []
  | fuel + 1, l =>
    match scan_token l with
    | (t, rest) =>
      if t.type = TokenType.eof then [t]
      else t :: scan_tokens_fuel fuel rest

/-- The token stream observable by the parser: tokens produced by
`scan_token` up to and including the first `TOKEN_EOF`-typed token (which
is either the genuine end-of-input marker or an `error_token`; the C
parser never advances past either). -/
def tokenize (l : List Char) : List Token :=
  scan_tokens_fuel (l.length + 1) l

theorem scan_tokens_fuel_congr :
    ∀ f1 : Nat, ∀ f2 : Nat, ∀ l : List Char, l.length < f1 → l.length < f2 →
      scan_tokens_fuel f1 l = scan_tokens_fuel f2 l := by
  intro f1
  induction f1 with
  | zero => intro f2 l h1; omega
  | succ n ih =>
    intro f2 l h1 h2
    cases f2 with
    | zero => omega
    | succ m =>
      simp only [scan_tokens_fuel]
      cases hs : scan_token l with
      | mk t rest =>
        by_cases ht : t.type = TokenType.eof
        · simp [ht]
        · have hshrink := scan_token_shrinks l
          rw [hs] at hshrink
          have hr : rest.length < l.length := hshrink.resolve_left ht
          simp only [ht, if_false]
          rw [ih m rest (by omega) (by omega)]

/-- IEEE-754 binary64 values as the C code uses them, modelled exactly:
finite values are rationals (every arithmetic fact proved in this file
involves only small integers and division by zero, which binary64
represents exactly), plus the two infinities and NaN.  Rounding and
signed zero are not modelled. -/
inductive DVal
  | finite (q : ℚ)
  | posInf
  | negInf
  | nan
deriving DecidableEq

/-- IEEE-754 addition on `DVal` (the `left + right` of C `eval_expr`). -/
def dAdd : DVal → DVal → DVal
  | DVal.nan, _ => DVal.nan
  | _, DVal.nan => DVal.nan
  | DVal.finite a, DVal.finite b => DVal.finite (a + b)
  | DVal.finite _, DVal.posInf => DVal.posInf
  | DVal.finite _, DVal.negInf => DVal.negInf
  | DVal.posInf, DVal.finite _ => DVal.posInf
  | DVal.negInf, DVal.finite _ => DVal.negInf
  | DVal.posInf, DVal.posInf => DVal.posInf
  | DVal.negInf, DVal.negInf => DVal.negInf
  | DVal.posInf, DVal.negInf => DVal.nan
  | DVal.negInf, DVal.posInf => DVal.nan

/-- IEEE-754 subtraction on `DVal` (the `left - right` of C `eval_expr`). -/
def dSub : DVal → DVal → DVal
  | DVal.nan, _ => DVal.nan
  | _, DVal.nan => DVal.nan
  | DVal.finite a, DVal.finite b => DVal.finite (a - b)
  | DVal.finite _, DVal.posInf => DVal.negInf
  | DVal.finite _, DVal.negInf => DVal.posInf
  | DVal.posInf, DVal.finite _ => DVal.posInf
  | DVal.negInf, DVal.finite _ => DVal.negInf
  | DVal.posInf, DVal.negInf => DVal.posInf
  | DVal.negInf, DVal.posInf => DVal.negInf
  | DVal.posInf, DVal.posInf => DVal.nan
  | DVal.negInf, DVal.negInf => DVal.nan

/-- IEEE-754 multiplication on `DVal` (the `left * right` of C
`eval_expr`). -/
def dMul : DVal → DVal → DVal
  | DVal.nan, _ => DVal.nan
  | _, DVal.nan => DVal.nan
  | DVal.finite a, DVal.finite b => DVal.finite (a * b)
  | DVal.finite a, DVal.posInf =>
      if 0 < a then DVal.posInf else if a < 0 then DVal.negInf else DVal.nan
  | DVal.finite a, DVal.negInf =>
      if 0 < a then DVal.negInf else if a < 0 then DVal.posInf else DVal.nan
  | DVal.posInf, DVal.finite b =>
      if 0 < b then DVal.posInf else if b < 0 then DVal.negInf else DVal.nan
  | DVal.negInf, DVal.finite b =>
      if 0 < b then DVal.negInf else if b < 0 then DVal.posInf else DVal.nan
  | DVal.posInf, DVal.posInf => DVal.posInf
  | DVal.posInf, DVal.negInf => DVal.negInf
  | DVal.negInf, DVal.posInf => DVal.negInf
  | DVal.negInf, DVal.negInf => DVal.posInf

/-- IEEE-754 division on `DVal` (the `left / right` of C `eval_expr`):
a finite value divided by zero gives an infinity (or NaN for 0/0),
never an error. -/
def dDiv : DVal → DVal → DVal
  | DVal.nan, _ => DVal.nan
  | _, DVal.nan => DVal.nan
  | DVal.finite a, DVal.finite b =>
      if b = 0 then
        (if 0 < a then DVal.posInf else if a < 0 then DVal.negInf else DVal.nan)
      else DVal.finite (a / b)
  | DVal.finite _, DVal.posInf => DVal.finite 0
  | DVal.finite _, DVal.negInf => DVal.finite 0
  | DVal.posInf, DVal.finite b => if 0 ≤ b then DVal.posInf else DVal.negInf
  | DVal.negInf, DVal.finite b => if 0 ≤ b then DVal.negInf else DVal.posInf
  | DVal.posInf, DVal.posInf => DVal.nan
  | DVal.posInf, DVal.negInf => DVal.nan
  | DVal.negInf, DVal.posInf => DVal.nan
  | DVal.negInf, DVal.negInf => DVal.nan

/-- Truncation of a name to its first 63 characters: every place the C
code stores a name copies at most `sizeof(buf) - 1 = 63` characters into
a 64-byte buffer (`new_variable_expr`, the assignment branch of
`parser_statement`, and `get_var_slot`). -/
def truncate63 (s : String) : String :=
  String.mk (s.data.take 63)

/-- Expression nodes, mirroring the C `Expr` tagged union.  The binary
operator is stored as a `TokenType`, exactly as in the C struct.
`var` corresponds to `EXPR_VARIABLE` (its C field is a 64-byte buffer,
hence always holds a name of at most 63 characters). -/
inductive Expr
  | number (value : DVal)
  | var (name : String)
  | binary (left : Expr) (op : TokenType) (right : Expr)
deriving DecidableEq

/-- Statement nodes, mirroring the C `Stmt` tagged union (the `next`
pointer becomes a `List Stmt` for whole programs). -/
inductive Stmt
  | exprStmt (e : Expr)
  | printStmt (e : Expr)
  | assign (name : String) (e : Expr)
deriving DecidableEq

/-- One occupied slot of the C `vars` table (`is_set == 1`). -/
structure Var where
  name : String
  value : DVal
deriving DecidableEq

/-- The C variable table has `MAX_VARS = 64` slots. -/
def MAX_VARS : Nat := 64

/-- The environment: the occupied slots of the C `vars` array in slot
order.  Since `is_set` is never cleared, the occupied slots always form
a prefix of the array, so the first free slot is the end of this list. -/
abbrev Env := List Var

/-- Mirrors C `find_var_slot` (called with `length = strlen(name)` at
every call site): scan the occupied slots in order for one whose stored
name equals the whole lookup name, returning the first match or none. -/
def find_var_slot (env : Env) (name : String) : Option Var :=
  env.find? (fun v => v.name = name)

/-- Writing through the slot pointer returned by C `find_var_slot`:
replace the value of the first slot whose name matches. -/
def set_first (env : Env) (name : String) (value : DVal) : Env :=
  match env with
  | [] => []
  | v :: rest =>
    if v.name = name then ⟨v.name, value⟩ :: rest
    else v :: set_first rest name value

/-- The environment-level error of C `get_var_slot`: no free slot left. -/
inductive EnvErr
  | tooManyVariables
deriving DecidableEq

/-- Mirrors C `get_var_slot` followed by the caller's write of `value`
through the returned slot pointer (the only way the interpreter ever
uses it, in the `STMT_ASSIGN` case of `exect_stmt`): if a slot matching
the full `name` exists, overwrite its value; otherwise claim the first
free slot, storing the name truncated to 63 characters, failing when all
`MAX_VARS` slots are occupied. -/
def env_set (env : Env) (name : String) (value : DVal) : Except EnvErr Env :=
  match find_var_slot env name with
  | some _ => Except.ok (set_first env name value)
  | none =>
    if env.length < MAX_VARS then
      Except.ok (env ++ [⟨truncate63 name, value⟩])
    else
      Except.error EnvErr.tooManyVariables

/-- Parse errors, a closed enumeration of the conditions on which the C
parser reports a message and exits (the spec fixes only the
condition-to-failure mapping, not the wording, so the messages are not
reproduced here).  `outOfFuel` is an artifact of the fuel-based
embedding and is never reached with the fuel supplied by `parse`. -/
inductive ParseErr
  | expectedRParen
  | expectedSemicolonAfterPrint
  | expectedSemicolonAfterAssignment
  | expectedSemicolonAfterExpression
  | expectedEqualAfterIdentifier
  | expectedFactor
  | outOfFuel
deriving DecidableEq

/-- Result of a parsing function: a parse error, or a value together
with the tokens not yet consumed. -/
abbrev ParseResult (α : Type) := Except ParseErr (α × List Token)

/-- The parser's one-token lookahead `parser.current`: the head of the
remaining token stream (the stream produced by `tokenize` always ends in
a `TOKEN_EOF`-typed token and the C parser never advances past it, so the
empty-list fallback is never reached on streams coming from `tokenize`). -/
def cur : List Token → Token
  | [] => ⟨TokenType.eof, ""⟩
  | t :: _ => t

/-- Mirrors C `advance_parser`: drop the current token. -/
def adv : List Token → List Token
  | [] => []
  | _ :: ts => ts

/-- The numeric value of a number token: C `parser_factor` copies at
most 63 characters of the token text into a buffer and applies `strtod`;
on a string of decimal digits `strtod` yields their value (exact in
binary64 for every literal appearing in the claims). -/
def number_token_value (t : Token) : DVal :=
  DVal.finite ((t.text.data.take 63).foldl (fun acc c => 10 * acc + (c.toNat - 48)) 0 : ℕ)

mutual

/-- Mirrors C `parser_factor`: a number literal, a variable reference
(name truncated to 63 characters by `new_variable_expr`), or a
parenthesized expression; anything else is a parse error. -/
def parser_factor : Nat → List Token → ParseResult Expr
  | 0, _ => Except.error ParseErr.outOfFuel
  | fuel + 1, ts =>
    if (cur ts).type = TokenType.number then
      Except.ok (Expr.number (number_token_value (cur ts)), adv ts)
    else if (cur ts).type = TokenType.identifier then
      Except.ok (Expr.var (truncate63 (cur ts).text), adv ts)
    else if (cur ts).type = TokenType.lparen then
      match parse_expression fuel (adv ts) with
      | Except.error e => Except.error e
      | Except.ok (inside, ts') =>
        if (cur ts').type = TokenType.rparen then Except.ok (inside, adv ts')
        else Except.error ParseErr.expectedRParen
    else
      Except.error ParseErr.expectedFactor

/-- Mirrors C `parser_term`: a factor followed by a left-associative
run of `*` / `/` factors. -/
def parser_term : Nat → List Token → ParseResult Expr
  | 0, _ => Except.error ParseErr.outOfFuel
  | fuel + 1, ts =>
    match parser_factor fuel ts with
    | Except.error e => Except.error e
    | Except.ok (e, ts') => term_ops fuel e ts'

/-- The `while (STAR or SLASH)` loop of C `parser_term`, folding further
factors onto the left operand. -/
def term_ops : Nat → Expr → List Token → ParseResult Expr
  | 0, _, _ => Except.error ParseErr.outOfFuel
  | fuel + 1, e, ts =>
    if (cur ts).type = TokenType.star ∨ (cur ts).type = TokenType.slash then
      match parser_factor fuel (adv ts) with
      | Except.error err => Except.error err
      | Except.ok (r, ts') => term_ops fuel (Expr.binary e (cur ts).type r) ts'
    else
      Except.ok (e, ts)

/-- Mirrors C `parse_expression`: a term followed by a left-associative
run of `+` / `-` terms. -/
def parse_expression : Nat → List Token → ParseResult Expr
  | 0, _ => Except.error ParseErr.outOfFuel
  | fuel + 1, ts =>
    match parser_term fuel ts with
    | Except.error e => Except.error e
    | Except.ok (e, ts') => expression_ops fuel e ts'

/-- The `while (PLUS or MINUS)` loop of C `parse_expression`, folding
further terms onto the left operand. -/
def expression_ops : Nat → Expr → List Token → ParseResult Expr
  | 0, _, _ => Except.error ParseErr.outOfFuel
  | fuel + 1, e, ts =>
    if (cur ts).type = TokenType.plus ∨ (cur ts).type = TokenType.minus then
      match parser_term fuel (adv ts) with
      | Except.error err => Except.error err
      | Except.ok (r, ts') => expression_ops fuel (Expr.binary e (cur ts).type r) ts'
    else
      Except.ok (e, ts)

end

/-- Mirrors C `parser_statement`: the `print` keyword starts a print
statement; an identifier must start an assignment (its target name
truncated to 63 characters, as the C code copies it into a 64-byte
buffer) and demands `=`; anything else is parsed as a bare expression
statement.  Each form demands a closing `;`. -/
def parser_statement (fuel : Nat) (ts : List Token) : ParseResult Stmt :=
  if (cur ts).type = TokenType.print_kw then
    match parse_expression fuel (adv ts) with
    | Except.error e => Except.error e
    | Except.ok (e, ts') =>
      if (cur ts').type = TokenType.semicolon then
        Except.ok (Stmt.printStmt e, adv ts')
      else Except.error ParseErr.expectedSemicolonAfterPrint
  else if (cur ts).type = TokenType.identifier then
    let nameTok := cur ts
    let ts1 := adv ts
    if (cur ts1).type = TokenType.equal then
      match parse_expression fuel (adv ts1) with
      | Except.error e => Except.error e
      | Except.ok (e, ts2) =>
        if (cur ts2).type = TokenType.semicolon then
          Except.ok (Stmt.assign (truncate63 nameTok.text) e, adv ts2)
        else Except.error ParseErr.expectedSemicolonAfterAssignment
    else Except.error ParseErr.expectedEqualAfterIdentifier
  else
    match parse_expression fuel ts with
    | Except.error e => Except.error e
    | Except.ok (e, ts') =>
      if (cur ts').type = TokenType.semicolon then
        Except.ok (Stmt.exprStmt e, adv ts')
      else Except.error ParseErr.expectedSemicolonAfterExpression

/-- Mirrors C `parser_program`: parse statements until the current token
has type `TOKEN_EOF` (which is also how an `error_token` presents
itself), collecting them in order. -/
def parser_program : Nat → List Token → Except ParseErr (List Stmt)
  | 0, _ => Except.error ParseErr.outOfFuel
  | fuel + 1, ts =>
    if (cur ts).type = TokenType.eof then Except.ok []
    else
      match parser_statement fuel ts with
      | Except.error e => Except.error e
      | Except.ok (s, ts') =>
        match parser_program fuel ts' with
        | Except.error e => Except.error e
        | Except.ok rest => Except.ok (s :: rest)

/-- Ample fuel for parsing a source buffer: the C parser's recursion
depth is linear in the number of tokens, itself at most the number of
characters. -/
def parse_fuel (l : List Char) : Nat :=
  8 * l.length + 16

/-- The parsing pipeline of C `main`: lex the buffer and parse a whole
program from its token stream. -/
def parse (source : String) : Except ParseErr (List Stmt) :=
  parser_program (parse_fuel source.data) (tokenize source.data)

/-- Runtime errors of C `eval_expr` (each reported on stderr followed by
`exit(1)`). -/
inductive RuntimeErr
  | undefinedVariable (name : String)
  | unknownBinaryOperator
deriving DecidableEq

/-- Mirrors C `eval_expr`: a number is its value; a variable is looked
up with `find_var_slot` (undefined-variable runtime error when absent,
never a default); a binary node evaluates left then right and combines
with the operator's IEEE-754 arithmetic. -/
def eval_expr : Expr → Env → Except RuntimeErr DVal
  | Expr.number v, _ => Except.ok v
  | Expr.var name, env =>
    match find_var_slot env name with
    | some slot => Except.ok slot.value
    | none => Except.error (RuntimeErr.undefinedVariable name)
  | Expr.binary l op r, env =>
    match eval_expr l env with
    | Except.error e => Except.error e
    | Except.ok lv =>
      match eval_expr r env with
      | Except.error e => Except.error e
      | Except.ok rv =>
        match op with
        | TokenType.plus => Except.ok (dAdd lv rv)
        | TokenType.minus => Except.ok (dSub lv rv)
        | TokenType.star => Except.ok (dMul lv rv)
        | TokenType.slash => Except.ok (dDiv lv rv)
        | _ => Except.error RuntimeErr.unknownBinaryOperator

/-- Errors on which statement execution halts the run (C exits the
process). -/
inductive ExecErr
  | runtime (e : RuntimeErr)
  | env (e : EnvErr)
deriving DecidableEq

/-- The observable interpreter state: the variable table and the values
printed so far (the text rendering of `printf("%g\n", ...)` is out of
scope; output is modelled as the sequence of printed values). -/
structure RunState where
  env : Env
  output : List DVal
deriving DecidableEq

/-- Mirrors C `exect_stmt` (name as in the source).  The returned state
is the state at the moment execution stops: on an error the C process
exits, so the state components are exactly as they were — in particular
an assignment evaluates its right-hand side *before* touching the
variable table. -/
def exect_stmt (stmt : Stmt) (st : RunState) : RunState × Option ExecErr :=
  match stmt with
  | Stmt.printStmt e =>
    match eval_expr e st.env with
    | Except.ok v => (⟨st.env, st.output ++ [v]⟩, none)
    | Except.error err => (st, some (ExecErr.runtime err))
  | Stmt.assign name e =>
    match eval_expr e st.env with
    | Except.ok v =>
      match env_set st.env name v with
      | Except.ok env' => (⟨env', st.output⟩, none)
      | Except.error err => (st, some (ExecErr.env err))
    | Except.error err => (st, some (ExecErr.runtime err))
  | Stmt.exprStmt e =>
    match eval_expr e st.env with
    | Except.ok _ => (st, none)
    | Except.error err => (st, some (ExecErr.runtime err))

/-- Mirrors C `exec_program`: execute statements in order, stopping at
the first error (in C the erroring statement exits the process). -/
def exec_program : List Stmt → RunState → RunState × Option ExecErr
  | [], st => (st, none)
  | s :: rest, st =>
    match exect_stmt s st with
    | (st', none) => exec_program rest st'
    | (st', some e) => (st', some e)

/-- Errors a whole run can stop with. -/
inductive RunErr
  | parse (e : ParseErr)
  | exec (e : ExecErr)
deriving DecidableEq

/-- The empty initial state: the C `vars` array is a zeroed global, so
every slot starts with `is_set == 0`. -/
def initState : RunState := ⟨[], []⟩

/-- Mirrors C `main` on one line of input: parse the whole program first
(a parse error exits before anything executes, leaving the state
untouched), then execute it from the empty state. -/
def run (source : String) : RunState × Option RunErr :=
  match parse source with
  | Except.error e => (initState, some (RunErr.parse e))
  | Except.ok program =>
    match exec_program program initState with
    | (st, none) => (st, none)
    | (st, some e) => (st, some (RunErr.exec e))

deriving instance DecidableEq for Except

/-- Distinct names used to fill the variable table in counterexamples. -/
def names64 : List String :=
  (List.range 64).map (fun i => "v" ++ toString i)

/-- A sequence of `set` operations starting from the empty environment. -/
def set_sequence (names : List String) : Except EnvErr Env :=
  names.foldlM (fun env n => env_set env n (DVal.finite 0)) []

/-- A variable table with all 64 slots occupied. -/
def full64 : Env :=
  (List.range 64).map (fun i => ⟨"v" ++ toString i, DVal.finite 0⟩)

/-- A 64-character name: one character longer than the 63 characters the
C code stores. -/
def aaa64 : String := String.mk (List.replicate 64 'a')

/-- The 63-character truncation of `aaa64`. -/
def aaa63 : String := String.mk (List.replicate 63 'a')

/-- A second 64-character name agreeing with `aaa64` on its first 63
characters. -/
def aaa64b : String := String.mk (List.replicate 63 'a' ++ ['b'])

theorem truncate63_eq_self (s : String) (h : s.data.length ≤ 63) :
    truncate63 s = s := by
  unfold truncate63
  rw [List.take_of_length_le h]

theorem find_set_first (env : Env) (name : String) (v : DVal) (w : Var)
    (h : find_var_slot env name = some w) :
    find_var_slot (set_first env name v) name = some ⟨name, v⟩ := by
  induction env with
  | nil => simp [find_var_slot] at h
  | cons x rest ih =>
    by_cases hx : x.name = name
    · simp [set_first, find_var_slot, hx]
    · have h' : find_var_slot rest name = some w := by
        simpa [find_var_slot, hx] using h
      simpa [set_first, find_var_slot, hx] using ih h'

theorem set_first_map_name (env : Env) (name : String) (v : DVal) :
    (set_first env name v).map Var.name = env.map Var.name := by
  induction env with
  | nil => rfl
  | cons x rest ih =>
    by_cases hx : x.name = name
    · simp [set_first, hx]
    · simp [set_first, hx, ih]

theorem find_var_slot_none {env : Env} {name : String}
    (h : find_var_slot env name = none) : name ∉ env.map Var.name := by
  unfold find_var_slot at h
  rw [List.find?_eq_none] at h
  intro hmem
  rcases List.mem_map.mp hmem with ⟨w, hwmem, hwname⟩
  have := h w hwmem
  simp [hwname] at this

theorem find_var_slot_append {env : Env} {name : String} (x : Var)
    (h : find_var_slot env name = none) :
    find_var_slot (env ++ [x]) name = find_var_slot [x] name := by
  induction env with
  | nil => rfl
  | cons y rest ih =>
    by_cases hy : y.name = name
    · simp [find_var_slot, hy] at h
    · have h' : find_var_slot rest name = none := by
        simpa [find_var_slot, hy] using h
      simpa [find_var_slot, hy] using ih h'

theorem env_set_find {env : Env} {name : String} {v : DVal} {env' : Env}
    (hlen : name.data.length ≤ 63)
    (hset : env_set env name v = Except.ok env') :
    find_var_slot env' name = some ⟨name, v⟩ := by
  unfold env_set at hset
  cases hf : find_var_slot env name with
  | some w =>
    rw [hf] at hset
    injection hset with h
    subst h
    exact find_set_first env name v w hf
  | none =>
    rw [hf] at hset
    by_cases hcap : env.length < MAX_VARS
    · rw [if_pos hcap] at hset
      injection hset with h
      subst h
      rw [find_var_slot_append _ hf]
      simp [find_var_slot, truncate63_eq_self name hlen]
    · rw [if_neg hcap] at hset
      exact absurd hset (by simp)

theorem env_set_nodup {env : Env} {name : String} {v : DVal} {env' : Env}
    (hlen : name.data.length ≤ 63)
    (hnd : (env.map Var.name).Nodup)
    (hset : env_set env name v = Except.ok env') :
    (env'.map Var.name).Nodup := by
  unfold env_set at hset
  cases hf : find_var_slot env name with
  | some w =>
    rw [hf] at hset
    injection hset with h
    subst h
    rw [set_first_map_name]
    exact hnd
  | none =>
    rw [hf] at hset
    by_cases hcap : env.length < MAX_VARS
    · rw [if_pos hcap] at hset
      injection hset with h
      subst h
      have hnm := find_var_slot_none hf
      rw [truncate63_eq_self name hlen] at *
      simp only [List.map_append, List.map_cons, List.map_nil]
      rw [List.nodup_append]
      refine ⟨hnd, List.nodup_singleton _, ?_⟩
      intro a ha hb
      simp only [List.mem_singleton] at hb
      subst hb
      exact hnm ha
    · rw [if_neg hcap] at hset
      exact absurd hset (by simp)

unseal Rat.add Rat.mul Rat.sub Rat.inv in
/-- Claim C1: the parser builds expression trees with `*` and `/` binding
tighter than `+` and `-`, and all binary operators grouping
left-associatively; consequently `1 + 2 * 3` parses as `1 + (2 * 3)` and
evaluates to 7 (not 9), `8 - 3 - 2` parses as `(8 - 3) - 2` and evaluates
to 3, and parentheses override precedence (`(1 + 2) * 3` evaluates
to 9). -/
theorem C1_precedence_and_associativity :
    parse "1 + 2 * 3;" =
      Except.ok [Stmt.exprStmt (Expr.binary (Expr.number (DVal.finite 1)) TokenType.plus
        (Expr.binary (Expr.number (DVal.finite 2)) TokenType.star
          (Expr.number (DVal.finite 3))))] ∧
    parse "8 - 3 - 2;" =
      Except.ok [Stmt.exprStmt (Expr.binary
        (Expr.binary (Expr.number (DVal.finite 8)) TokenType.minus
          (Expr.number (DVal.finite 3)))
        TokenType.minus (Expr.number (DVal.finite 2)))] ∧
    run "print 1 + 2 * 3;" = (⟨[], [DVal.finite 7]⟩, none) ∧
    run "print 8 - 3 - 2;" = (⟨[], [DVal.finite 3]⟩, none) ∧
    run "print (1 + 2) * 3;" = (⟨[], [DVal.finite 9]⟩, none) := by
  refine ⟨rfl, rfl, by decide, by decide, by decide⟩

/-- Claim C2: for every environment and every variable name not bound in
it, evaluating a variable-reference expression for that name fails with
the undefined-variable runtime error — it never yields a default value
of 0. -/
theorem C2_undefined_variable_read_fails (env : Env) (name : String)
    (h : find_var_slot env name = none) :
    eval_expr (Expr.var name) env =
      Except.error (RuntimeErr.undefinedVariable name) := by
  unfold eval_expr
  rw [h]

/-- Witness for C2: reading `y` in the empty environment (as in running
`print y;`) fails with the undefined-variable error. -/
theorem C2_witness :
    find_var_slot [] "y" = none ∧
    eval_expr (Expr.var "y") [] =
      Except.error (RuntimeErr.undefinedVariable "y") :=
  ⟨rfl, C2_undefined_variable_read_fails [] "y" rfl⟩

unseal Rat.add Rat.mul Rat.sub Rat.inv in
/-- Claim C3, evaluated at the failing inputs: an unexpected character
produces an `error_token` whose type is `TokenType.eof`, which the parser
cannot distinguish from genuine end-of-input.  Consequently running `@`
succeeds silently with no error of any kind, `1 @ 2;` fails with a
missing-semicolon *parse* error rather than a lexical one, and
`print 1; @ print 2;` prints `1` and ends with no error, silently
dropping everything after the `@`.  The claim that such runs fail with a
distinguishable lexical error describes the evident intent of
`error_token` (which carries the message "Unexpected character." that no
caller ever surfaces), not the code's behavior. -/
theorem C3_unexpected_character_swallowed :
    scan_token ['@'] = (⟨TokenType.eof, "Unexpected character."⟩, []) ∧
    run "@" = (initState, none) ∧
    run "1 @ 2;" =
      (initState, some (RunErr.parse ParseErr.expectedSemicolonAfterExpression)) ∧
    run "print 1; @ print 2;" = (⟨[], [DVal.finite 1]⟩, none) := by
  refine ⟨rfl, rfl, rfl, by decide⟩

/-- Claim C4: a parse error halts the whole run before any statement
executes — for every input whose parse fails, no statement of that input
is executed and no output is produced (the state is the initial one). -/
theorem C4_parse_error_halts_whole_run (source : String) (e : ParseErr)
    (h : parse source = Except.error e) :
    run source = (initState, some (RunErr.parse e)) := by
  unfold run
  rw [h]

/-- Witness for C4: `x = ;` fails to parse (the factor after `=` is
missing), and its run produces no output and executes nothing. -/
theorem C4_witness :
    parse "x = ;" = Except.error ParseErr.expectedFactor ∧
    run "x = ;" = (initState, some (RunErr.parse ParseErr.expectedFactor)) :=
  ⟨rfl, C4_parse_error_halts_whole_run "x = ;" ParseErr.expectedFactor rfl⟩

unseal Rat.add Rat.mul Rat.sub Rat.inv in
/-- Claim C5: division by zero is not an error — evaluating a `/` binary
expression whose right operand is zero yields the IEEE-754
infinity/NaN result rather than raising any error, and
`print 1 / 0;` prints positive infinity. -/
theorem C5_division_by_zero_not_an_error (l r : Expr) (env : Env) (q : ℚ)
    (hl : eval_expr l env = Except.ok (DVal.finite q))
    (hr : eval_expr r env = Except.ok (DVal.finite 0)) :
    eval_expr (Expr.binary l TokenType.slash r) env =
      Except.ok (if 0 < q then DVal.posInf
        else if q < 0 then DVal.negInf else DVal.nan) ∧
    run "print 1 / 0;" = (⟨[], [DVal.posInf]⟩, none) := by
  constructor
  · simp [eval_expr, hl, hr, dDiv]
  · decide

/-- Witness for C5: `1 / 0` evaluates to positive infinity, not an
error. -/
theorem C5_witness :
    eval_expr (Expr.binary (Expr.number (DVal.finite 1)) TokenType.slash
        (Expr.number (DVal.finite 0))) [] =
      Except.ok (if (0 : ℚ) < 1 then DVal.posInf
        else if (1 : ℚ) < 0 then DVal.negInf else DVal.nan) :=
  (C5_division_by_zero_not_an_error (Expr.number (DVal.finite 1))
    (Expr.number (DVal.finite 0)) [] 1 rfl rfl).1

unseal Rat.add Rat.mul Rat.sub Rat.inv in
/-- Claim C6: executing an assignment evaluates its right-hand side and
writes the result to the environment under the target name, so a later
read of that name yields that value; running `x = 5; print x + 1;`
prints 6. -/
theorem C6_assignment_then_read (name : String) (e : Expr) (env : Env)
    (out : List DVal) (v : DVal) (env' : Env)
    (hlen : name.data.length ≤ 63)
    (hv : eval_expr e env = Except.ok v)
    (hexec : exect_stmt (Stmt.assign name e) ⟨env, out⟩ = (⟨env', out⟩, none)) :
    find_var_slot env' name = some ⟨name, v⟩ ∧
    run "x = 5; print x + 1;" =
      (⟨[⟨"x", DVal.finite 5⟩], [DVal.finite 6]⟩, none) := by
  constructor
  · simp only [exect_stmt] at hexec
    rw [hv] at hexec
    dsimp only at hexec
    cases hs : env_set env name v with
    | ok env2 =>
      rw [hs] at hexec
      dsimp only at hexec
      have h2 : env2 = env' := by
        have := congrArg (fun p => p.1.env) hexec
        simpa using this
      subst h2
      exact env_set_find hlen hs
    | error err =>
      rw [hs] at hexec
      simp at hexec
  · decide

/-- Witness for C6: assigning `5` to `x` in the empty environment makes
a later read of `x` yield `5`. -/
theorem C6_witness :
    find_var_slot [⟨"x", DVal.finite 5⟩] "x" = some ⟨"x", DVal.finite 5⟩ :=
  (C6_assignment_then_read "x" (Expr.number (DVal.finite 5)) [] []
    (DVal.finite 5) [⟨"x", DVal.finite 5⟩] (by decide) rfl rfl).1

/-- Counterexample to claim C7: the variable table has a hard capacity of
`MAX_VARS = 64` slots.  After a sequence of `set` operations binding 64
distinct names, setting one more distinct name fails with the
too-many-variables error instead of succeeding. -/
theorem C7_counterexample :
    names64.Nodup ∧ names64.length = 64 ∧ "w" ∉ names64 ∧
    (set_sequence names64).bind (fun env => env_set env "w" (DVal.finite 1)) =
      Except.error EnvErr.tooManyVariables := by
  refine ⟨by decide, by decide, by decide, by decide⟩

/-- Claim C7 as amended: the environment's `set` operation supports at
most `MAX_VARS = 64` distinct names.  While fewer than 64 slots are
occupied, setting any name (fresh or bound) succeeds; once 64 are
occupied, setting a name that is not already bound fails with the
too-many-variables error. -/
theorem C7_amended_capacity_is_64 (env : Env) (name : String) (v : DVal) :
    (env.length < MAX_VARS → ∃ env', env_set env name v = Except.ok env') ∧
    (MAX_VARS ≤ env.length → find_var_slot env name = none →
      env_set env name v = Except.error EnvErr.tooManyVariables) := by
  constructor
  · intro hcap
    unfold env_set
    cases hf : find_var_slot env name with
    | some w => exact ⟨_, rfl⟩
    | none =>
      rw [if_pos hcap]
      exact ⟨_, rfl⟩
  · intro hcap hnone
    unfold env_set
    rw [hnone, if_neg (by omega)]

/-- Witness for the amended C7: a set in the empty table succeeds, and a
set of the fresh name `w` in a full 64-slot table fails. -/
theorem C7_witness :
    (∃ env', env_set [] "a" (DVal.finite 0) = Except.ok env') ∧
    env_set full64 "w" (DVal.finite 1) = Except.error EnvErr.tooManyVariables :=
  ⟨(C7_amended_capacity_is_64 [] "a" (DVal.finite 0)).1 (by decide),
   (C7_amended_capacity_is_64 full64 "w" (DVal.finite 1)).2 (by decide) (by decide)⟩

/-- Counterexample to claim C8: `set` matches existing slots against the
*full* name but stores only its first 63 characters, so two `set`
operations with the same 64-character name create two bindings whose
stored keys are identical — the environment then contains a duplicate
key. -/
theorem C8_counterexample :
    (env_set [] aaa64 (DVal.finite 1)).bind
        (fun env => env_set env aaa64 (DVal.finite 2)) =
      Except.ok [⟨aaa63, DVal.finite 1⟩, ⟨aaa63, DVal.finite 2⟩] ∧
    ¬ (([⟨aaa63, DVal.finite 1⟩, ⟨aaa63, DVal.finite 2⟩] : Env).map Var.name).Nodup := by
  refine ⟨by decide, by decide⟩

/-- Claim C8 as amended: provided every name passed to `set` has at most
63 characters (which holds for every name the parser can produce, since
it truncates identifiers to 63 characters), the environment never
contains two bindings for the same name: starting from a duplicate-free
environment, `set` creates a binding on first write, overwrites it on
subsequent writes, and preserves key distinctness.  With longer names
the stored key is the 63-character truncation and duplicates are
possible. -/
theorem C8_amended_no_duplicate_keys (env : Env) (name : String) (v : DVal)
    (env' : Env)
    (hlen : name.data.length ≤ 63)
    (hnd : (env.map Var.name).Nodup)
    (hset : env_set env name v = Except.ok env') :
    (env'.map Var.name).Nodup ∧ find_var_slot env' name = some ⟨name, v⟩ :=
  ⟨env_set_nodup hlen hnd hset, env_set_find hlen hset⟩

/-- Witness for the amended C8: setting `x` in the empty environment
creates one binding and keeps keys distinct. -/
theorem C8_witness :
    (([⟨"x", DVal.finite 1⟩] : Env).map Var.name).Nodup ∧
    find_var_slot [⟨"x", DVal.finite 1⟩] "x" = some ⟨"x", DVal.finite 1⟩ :=
  C8_amended_no_duplicate_keys [] "x" (DVal.finite 1) [⟨"x", DVal.finite 1⟩]
    (by decide) (by decide) rfl

/-- Claim C9: assignment is atomic with respect to the environment — if
evaluation of the right-hand side fails, the state is returned exactly
as it was, so no binding for the target name is created (the C code
evaluates the right-hand side before calling `get_var_slot`, and exits
on the evaluation error). -/
theorem C9_assignment_atomic_on_rhs_failure (name : String) (e : Expr)
    (env : Env) (out : List DVal) (err : RuntimeErr)
    (h : eval_expr e env = Except.error err) :
    exect_stmt (Stmt.assign name e) ⟨env, out⟩ =
      (⟨env, out⟩, some (ExecErr.runtime err)) := by
  unfold exect_stmt
  dsimp only
  rw [h]

/-- Witness for C9: `x = y;` with `y` undefined leaves the empty
environment empty — no binding for `x` is created. -/
theorem C9_witness :
    exect_stmt (Stmt.assign "x" (Expr.var "y")) ⟨[], []⟩ =
      (⟨[], []⟩, some (ExecErr.runtime (RuntimeErr.undefinedVariable "y"))) :=
  C9_assignment_atomic_on_rhs_failure "x" (Expr.var "y") [] []
    (RuntimeErr.undefinedVariable "y") rfl

/-- Claim C10: variable names are truncated to their first 63 characters
wherever they are stored — in variable-reference expressions built by
the factor parser, in assignment targets built by the statement parser,
and in environment keys claimed by `set` — and two names agreeing on
their first 63 characters truncate to the same stored name, hence denote
the same variable. -/
theorem C10_names_truncated_to_63 (t : Token) (ts : List Token) (fuel : Nat)
    (s s2 : String) (v : DVal) (env : Env) :
    (t.type = TokenType.identifier →
      parser_factor (fuel + 1) (t :: ts) =
        Except.ok (Expr.var (truncate63 t.text), ts)) ∧
    (∀ eqTok rest e tsc,
      t.type = TokenType.identifier → eqTok.type = TokenType.equal →
      parse_expression fuel rest = Except.ok (e, tsc) →
      (cur tsc).type = TokenType.semicolon →
      parser_statement fuel (t :: eqTok :: rest) =
        Except.ok (Stmt.assign (truncate63 t.text) e, adv tsc)) ∧
    (find_var_slot env s = none → env.length < MAX_VARS →
      env_set env s v = Except.ok (env ++ [⟨truncate63 s, v⟩])) ∧
    (s.data.take 63 = s2.data.take 63 → truncate63 s = truncate63 s2) := by
  refine ⟨?_, ?_, ?_, ?_⟩
  · intro ht
    simp [parser_factor, cur, adv, ht]
  · intro eqTok rest e tsc ht heq hexpr hsemi
    cases tsc with
    | nil => simp [cur] at hsemi
    | cons t2 rest2 =>
      simp only [cur] at hsemi
      simp [parser_statement, cur, adv, ht, heq, hexpr, hsemi]
  · intro hf hcap
    unfold env_set
    rw [hf, if_pos hcap]
  · intro h
    unfold truncate63
    rw [h]

/-- Witness for C10: a 64-character identifier is stored truncated, both
as a variable-reference expression and as an environment key, and a
different 64-character name agreeing on the first 63 characters
truncates to the same stored name. -/
theorem C10_witness :
    parser_factor 1 [⟨TokenType.identifier, aaa64⟩] =
      Except.ok (Expr.var (truncate63 aaa64), adv [⟨TokenType.identifier, aaa64⟩]) ∧
    env_set [] aaa64 (DVal.finite 1) =
      Except.ok ([] ++ [⟨truncate63 aaa64, DVal.finite 1⟩]) ∧
    truncate63 aaa64 = truncate63 aaa64b :=
  ⟨(C10_names_truncated_to_63 ⟨TokenType.identifier, aaa64⟩ [] 0 aaa64 aaa64b
      (DVal.finite 1) []).1 rfl,
   (C10_names_truncated_to_63 ⟨TokenType.identifier, aaa64⟩ [] 0 aaa64 aaa64b
      (DVal.finite 1) []).2.2.1 (by decide) (by decide),
   (C10_names_truncated_to_63 ⟨TokenType.identifier, aaa64⟩ [] 0 aaa64 aaa64b
      (DVal.finite 1) []).2.2.2 (by decide)⟩

end Compiler
